import Mathlib

/-!
# Verification of the squirrel wildlife-detector core

Shallow embedding of the detection-to-actuation control loop of the
`squirrel` repository (src/squirrel/main.py, main_ml.py, detector.py,
detector_ml.py, camera.py, gpio_multiclass.py), together with proofs of the
spec's claims about it.

Timestamps and confidences are modelled as rationals; pixel coordinates as
integers with Python's floor division (`Int.fdiv`) and `int()` truncation.
-/

namespace Squirrel

/-! ## Trigger scheduler

Embeds the per-class cooldown gate that lives inline in
`WildlifeDetectorApp.run` (main_ml.py lines 113-125):

    last_time = last_trigger_time.get(class_name, 0)
    if current_time - last_time >= trigger_cooldown:
        self.gpio.trigger_class(class_name, duration=0.5)
        last_trigger_time[class_name] = current_time

The single-class loop in `SquirrelDetectorApp.run` (main.py lines 99-107) is
the same machine restricted to one class, with `last_trigger_time = 0`
initially. A scheduler state maps each class name to the time it last fired,
`none` when it has never fired; the dict lookup `get(class_name, 0)` is
`(s c).getD 0`.
-/

/-- Outcome of one cooldown-gate decision: either the branch that triggers the
GPIO and records the time was taken ("fire"), or nothing happened
("suppressed"). -/
inductive FireDecision where
  | fire
  | suppressed
deriving DecidableEq, Repr

/-- The hard-coded `trigger_cooldown = 2.0` of main.py line 83 and
main_ml.py line 95. -/
def trigger_cooldown : ℚ := 2

/-- Scheduler state: the `last_trigger_time` dict. `none` means the class has
no entry (never fired). -/
abbrev SchedState := String → Option ℚ

/-- The empty `last_trigger_time: Dict[str, float] = {}` of main_ml.py
line 94. -/
def emptySched : SchedState := fun _ => none

/-- One cooldown-gate decision, embedding main_ml.py lines 115-125: reads
`last_trigger_time.get(class_name, 0)`, fires iff
`current_time - last_time >= trigger_cooldown`, and on fire stores
`last_trigger_time[class_name] = current_time`. -/
def try_fire (s : SchedState) (cooldown : ℚ) (c : String) (now : ℚ) :
    SchedState × FireDecision :=
  if now - (s c).getD 0 ≥ cooldown then
    (fun c' => if c' = c then some now else s c', FireDecision.fire)
  else
    (s, FireDecision.suppressed)

theorem try_fire_fire_iff (s : SchedState) (cd : ℚ) (c : String) (now : ℚ) :
    (try_fire s cd c now).2 = FireDecision.fire ↔ now - (s c).getD 0 ≥ cd := by
  unfold try_fire
  split_ifs with hc
  · simp [hc]
  · simp [hc]

theorem try_fire_suppressed_iff (s : SchedState) (cd : ℚ) (c : String) (now : ℚ) :
    (try_fire s cd c now).2 = FireDecision.suppressed ↔ ¬ now - (s c).getD 0 ≥ cd := by
  unfold try_fire
  split_ifs with hc
  · simp [hc]
  · simp [hc]

theorem try_fire_state_of_ge (s : SchedState) (cd : ℚ) (c : String) (now : ℚ)
    (h : now - (s c).getD 0 ≥ cd) :
    (try_fire s cd c now).1 = fun c' => if c' = c then some now else s c' := by
  unfold try_fire
  rw [if_pos h]

theorem try_fire_state_of_lt (s : SchedState) (cd : ℚ) (c : String) (now : ℚ)
    (h : ¬ now - (s c).getD 0 ≥ cd) :
    (try_fire s cd c now).1 = s := by
  unfold try_fire
  rw [if_neg h]

theorem try_fire_lookup_self_of_fire (s : SchedState) (cd : ℚ) (c : String) (now : ℚ)
    (h : (try_fire s cd c now).2 = FireDecision.fire) :
    (try_fire s cd c now).1 c = some now := by
  rw [try_fire_state_of_ge s cd c now ((try_fire_fire_iff s cd c now).mp h)]
  simp

/-- Claim C1 counterexample: the class "squirrel" has never fired in the empty
scheduler state, yet `try_fire("squirrel", t=0.0)` with cooldown 2.0 is
suppressed, not fired (the dict default 0 makes the guard `0 - 0 >= 2.0`
false); likewise a first-ever `try_fire("skunk", t=0.5)` is suppressed. -/
theorem c1_counterexample :
    emptySched "squirrel" = none ∧
    (try_fire emptySched trigger_cooldown "squirrel" 0).2 ≠ FireDecision.fire ∧
    (try_fire emptySched trigger_cooldown "squirrel" 0).2 = FireDecision.suppressed ∧
    emptySched "skunk" = none ∧
    (try_fire emptySched trigger_cooldown "skunk" (1/2)).2 ≠ FireDecision.fire ∧
    (try_fire emptySched trigger_cooldown "skunk" (1/2)).2 = FireDecision.suppressed := by
  have h0 : (try_fire emptySched trigger_cooldown "squirrel" 0).2 =
      FireDecision.suppressed := by
    rw [try_fire_suppressed_iff]
    norm_num [emptySched, trigger_cooldown]
  have hh : (try_fire emptySched trigger_cooldown "skunk" (1/2)).2 =
      FireDecision.suppressed := by
    rw [try_fire_suppressed_iff]
    norm_num [emptySched, trigger_cooldown]
  exact ⟨rfl, by rw [h0]; decide, h0, rfl, by rw [hh]; decide, hh⟩

/-- Claim C1 (amended): for a class that has never fired (no entry in
`last_trigger_time`), `try_fire(class, now)` fires iff `now ≥ cooldown`,
because the missing entry reads as 0; when it does fire it records
`last_fired_at = now`. In particular first calls at wall-clock timestamps
(always ≥ 2.0) fire, but `try_fire("squirrel", t=0.0)` and a first-ever
`try_fire("skunk", t=0.5)` are suppressed under cooldown 2.0. -/
theorem try_fire_first_call (s : SchedState) (cd : ℚ) (c : String) (now : ℚ)
    (h : s c = none) :
    ((try_fire s cd c now).2 = FireDecision.fire ↔ now ≥ cd) ∧
    (now ≥ cd →
      (try_fire s cd c now).1 c = some now ∧
      (try_fire s cd c now).2 = FireDecision.fire) := by
  have hget : (s c).getD 0 = 0 := by rw [h]; rfl
  have hiff := try_fire_fire_iff s cd c now
  rw [hget, sub_zero] at hiff
  refine ⟨hiff, fun hge => ⟨?_, hiff.mpr hge⟩⟩
  exact try_fire_lookup_self_of_fire s cd c now (hiff.mpr hge)

/-- Witness for `try_fire_first_call`: the never-fired class "skunk" at
`now = 3`, cooldown 2. -/
theorem try_fire_first_call_witness :
    emptySched "skunk" = none ∧
    (((try_fire emptySched 2 "skunk" 3).2 = FireDecision.fire ↔ (3:ℚ) ≥ 2) ∧
      ((3:ℚ) ≥ 2 →
        (try_fire emptySched 2 "skunk" 3).1 "skunk" = some 3 ∧
        (try_fire emptySched 2 "skunk" 3).2 = FireDecision.fire)) :=
  ⟨rfl, try_fire_first_call emptySched 2 "skunk" 3 rfl⟩

/-- Claim C2: if `try_fire(class, t1)` fires and is followed by
`try_fire(class, t2)` with `t2 ≥ t1`, the second call is suppressed iff
`t2 - t1 < cooldown` and fires iff `t2 - t1 ≥ cooldown`: the firing call
recorded `last_fired_at = t1`, so the second guard reads
`t2 - t1 >= cooldown`. -/
theorem try_fire_cooldown_window (s : SchedState) (cd : ℚ) (c : String) (t1 t2 : ℚ)
    (h1 : (try_fire s cd c t1).2 = FireDecision.fire) (h12 : t1 ≤ t2) :
    ((try_fire (try_fire s cd c t1).1 cd c t2).2 = FireDecision.suppressed ↔
        t2 - t1 < cd) ∧
    ((try_fire (try_fire s cd c t1).1 cd c t2).2 = FireDecision.fire ↔
        t2 - t1 ≥ cd) := by
  have hlook : ((try_fire s cd c t1).1 c).getD 0 = t1 := by
    rw [try_fire_lookup_self_of_fire s cd c t1 h1]; rfl
  have hf := try_fire_fire_iff (try_fire s cd c t1).1 cd c t2
  have hs := try_fire_suppressed_iff (try_fire s cd c t1).1 cd c t2
  rw [hlook] at hf hs
  exact ⟨hs.trans not_le, hf⟩

/-- Witness for `try_fire_cooldown_window`: first call at t1 = 5 fires from
the empty state (5 - 0 ≥ 2); second call at t2 = 6 is within the window. -/
theorem try_fire_cooldown_window_witness :
    (try_fire emptySched 2 "squirrel" 5).2 = FireDecision.fire ∧
    (5:ℚ) ≤ 6 ∧
    (((try_fire (try_fire emptySched 2 "squirrel" 5).1 2 "squirrel" 6).2 =
          FireDecision.suppressed ↔ (6:ℚ) - 5 < 2) ∧
      ((try_fire (try_fire emptySched 2 "squirrel" 5).1 2 "squirrel" 6).2 =
          FireDecision.fire ↔ (6:ℚ) - 5 ≥ 2)) := by
  have h1 : (try_fire emptySched 2 "squirrel" 5).2 = FireDecision.fire := by
    rw [try_fire_fire_iff]
    norm_num [emptySched]
  exact ⟨h1, by norm_num,
    try_fire_cooldown_window emptySched 2 "squirrel" 5 6 h1 (by norm_num)⟩

/-- Claim C5: `try_fire` is only mutating on a "fire" outcome: a suppressed
call returns the scheduler state exactly unchanged, and therefore any number
of repetitions of that suppressed call leave it unchanged. -/
theorem try_fire_suppressed_no_mutation (s : SchedState) (cd : ℚ) (c : String) (t : ℚ)
    (h : (try_fire s cd c t).2 = FireDecision.suppressed) :
    (try_fire s cd c t).1 = s ∧
    ∀ n : ℕ, (fun st => (try_fire st cd c t).1)^[n] s = s := by
  have hlt := (try_fire_suppressed_iff s cd c t).mp h
  have hfix : (try_fire s cd c t).1 = s := try_fire_state_of_lt s cd c t hlt
  exact ⟨hfix, fun n => Function.iterate_fixed hfix n⟩

/-- Witness for `try_fire_suppressed_no_mutation`: from the empty state the
call at t = 1 with cooldown 2 is suppressed, and iterating it is the
identity. -/
theorem try_fire_suppressed_no_mutation_witness :
    (try_fire emptySched 2 "squirrel" 1).2 = FireDecision.suppressed ∧
    ((try_fire emptySched 2 "squirrel" 1).1 = emptySched ∧
      ∀ n : ℕ, (fun st => (try_fire st 2 "squirrel" 1).1)^[n] emptySched = emptySched) := by
  have h : (try_fire emptySched 2 "squirrel" 1).2 = FireDecision.suppressed := by
    rw [try_fire_suppressed_iff]
    norm_num [emptySched]
  exact ⟨h, try_fire_suppressed_no_mutation emptySched 2 "squirrel" 1 h⟩

theorem try_fire_lookup_other (s : SchedState) (cd : ℚ) (a : String) (t : ℚ)
    (c : String) (h : c ≠ a) : (try_fire s cd a t).1 c = s c := by
  unfold try_fire
  split_ifs with hc
  · simp [h]
  · rfl

/-- Running a sequence of `try_fire` calls for class `a`, keeping only the
evolving `last_trigger_time` dict (the loop across several ticks, restricted
to one class). -/
def run_fires (cd : ℚ) (a : String) (ts : List ℚ) (s : SchedState) : SchedState :=
  ts.foldl (fun st t => (try_fire st cd a t).1) s

theorem run_fires_lookup_other (cd : ℚ) (a c : String) (h : c ≠ a) :
    ∀ (ts : List ℚ) (s : SchedState), run_fires cd a ts s c = s c := by
  intro ts
  induction ts with
  | nil => intro s; rfl
  | cons t ts ih =>
    intro s
    show run_fires cd a ts ((try_fire s cd a t).1) c = s c
    rw [ih, try_fire_lookup_other s cd a t c h]

theorem try_fire_decision_congr (s1 s2 : SchedState) (cd : ℚ) (c : String) (t : ℚ)
    (h : s1 c = s2 c) : (try_fire s1 cd c t).2 = (try_fire s2 cd c t).2 := by
  unfold try_fire
  rw [h]
  split_ifs <;> rfl

/-- Claim C3: fire decisions for distinct classes are independent. A call
`try_fire(a, t)` mutates only class `a`'s entry of `last_trigger_time`, and
for `a ≠ b` the decision of `try_fire(b, t')` is the same whether or not any
sequence of `try_fire(a, _)` calls happened before it. -/
theorem try_fire_class_independence (s : SchedState) (cd : ℚ) (a b : String)
    (hab : a ≠ b) :
    (∀ t : ℚ, (try_fire s cd a t).1 b = s b) ∧
    (∀ (ts : List ℚ) (t' : ℚ),
      (try_fire (run_fires cd a ts s) cd b t').2 = (try_fire s cd b t').2) := by
  constructor
  · intro t
    exact try_fire_lookup_other s cd a t b (Ne.symm hab)
  · intro ts t'
    exact try_fire_decision_congr (run_fires cd a ts s) s cd b t'
      (run_fires_lookup_other cd a b (Ne.symm hab) ts s)

/-- Witness for `try_fire_class_independence`: squirrel activity at times 0
and 5 never touches skunk's record nor changes skunk's decisions. -/
theorem try_fire_class_independence_witness :
    (∀ t : ℚ, (try_fire emptySched 2 "squirrel" t).1 "skunk" = emptySched "skunk") ∧
    (∀ (ts : List ℚ) (t' : ℚ),
      (try_fire (run_fires 2 "squirrel" ts emptySched) 2 "skunk" t').2 =
        (try_fire emptySched 2 "skunk" t').2) :=
  try_fire_class_independence emptySched 2 "squirrel" "skunk" (by decide)

/-! ## Detection loop ticks

Embeds one iteration of the `while self.running` loop body of
`WildlifeDetectorApp.run` (main_ml.py lines 100-134). A tick's input is
either a failed `camera.read()` (`None`) or a frame together with the
outcome of `detector.detect_and_check_center(frame)` and the current time.
The events record which collaborators the tick invoked.
-/

/-- Observable actions of one loop iteration. `readFailLog` is the
`logger.warning("Failed to read frame")` plus `time.sleep(0.1)` backoff of
main_ml.py lines 103-106; `detectorCall` is the
`detect_and_check_center` invocation of line 109; `gpioTriggerCall c` is
`self.gpio.trigger_class(c, duration=0.5)` of line 124. -/
inductive Event where
  | readFailLog
  | detectorCall
  | gpioTriggerCall (c : String)
deriving DecidableEq, Repr

/-- Input of one tick: `noFrame` when `camera.read()` returned `None`;
otherwise the frame's centered-detection outcome (`none` when nothing was
detected in the center) and the tick's `time.time()`. -/
inductive TickInput where
  | noFrame
  | frame (det : Option (String × (ℤ × ℤ × ℤ × ℤ) × ℚ)) (now : ℚ)

/-- One iteration of the main_ml.py run loop over the scheduler state:
on a failed read it logs, backs off and continues (lines 103-106, the
`continue` statement); on a frame it runs the detector and, when a class was
detected in the center, applies the cooldown gate (lines 113-125). -/
def tick (s : SchedState) (i : TickInput) : SchedState × List Event :=
  match i with
  | TickInput.noFrame => (s, [Event.readFailLog])
  | TickInput.frame det now =>
    match det with
    | none => (s, [Event.detectorCall])
    | some (cls, _bbox, _conf) =>
      let r := try_fire s trigger_cooldown cls now
      (r.1, Event.detectorCall ::
        (if r.2 = FireDecision.fire then [Event.gpioTriggerCall cls] else []))

/-- A run of consecutive ticks, accumulating the events in order. -/
def ticks (s : SchedState) : List TickInput → SchedState × List Event
  | [] => (s, [])
  | i :: is =>
    let r := tick s i
    let rest := ticks r.1 is
    (rest.1, r.2 ++ rest.2)

/-- Claim C6: any number of consecutive failed reads leaves the per-class
trigger state exactly unchanged and emits only the log-and-backoff event —
no detector, center gate, scheduler or actuator invocation — and the next
tick on any input behaves exactly as it would have without the failures. -/
theorem tick_read_failure_recoverable (s : SchedState) (n : ℕ) :
    ticks s (List.replicate n TickInput.noFrame) =
      (s, List.replicate n Event.readFailLog) ∧
    ∀ i : TickInput,
      tick (ticks s (List.replicate n TickInput.noFrame)).1 i = tick s i := by
  have hmain : ∀ (m : ℕ) (st : SchedState),
      ticks st (List.replicate m TickInput.noFrame) =
        (st, List.replicate m Event.readFailLog) := by
    intro m
    induction m with
    | zero => intro st; rfl
    | succ k ih =>
      intro st
      rw [List.replicate_succ]
      show (_, _) = _
      rw [show (tick st TickInput.noFrame) = (st, [Event.readFailLog]) from rfl]
      rw [ih st, List.replicate_succ]
      rfl
  refine ⟨hmain n s, fun i => ?_⟩
  rw [hmain n s]

/-! ## Center gate

Embeds `SquirrelDetector.is_in_center` (detector.py lines 117-150) and the
identical `MLDetector.is_in_center` (detector_ml.py lines 183-216). The
frame enters only through its `shape[:2]` geometry `(height, width)`;
Python's `//` on ints is floor division (`Int.fdiv`) and `int()` on a float
truncates toward zero (`py_int`).
-/

/-- Python's `int()` on a rational value: truncation toward zero. -/
def py_int (q : ℚ) : ℤ := q.num / (q.den : ℤ)

/-- The center test of detector.py lines 117-150: fails closed on a missing
bbox, computes the bbox center with floor division, derives the centered
region from `center_threshold`, and checks closed-interval membership on
each axis independently. -/
def is_in_center (center_threshold : ℚ) (frame_width frame_height : ℕ)
    (bbox : Option (ℤ × ℤ × ℤ × ℤ)) : Bool :=
  match bbox with
  | none => false
  | some (x, y, w, h) =>
    let bbox_center_x := x + Int.fdiv w 2
    let bbox_center_y := y + Int.fdiv h 2
    let center_region_width := py_int ((frame_width : ℚ) * center_threshold)
    let center_region_height := py_int ((frame_height : ℚ) * center_threshold)
    let center_start_x := Int.fdiv (frame_width : ℤ) 2 - Int.fdiv center_region_width 2
    let center_end_x := Int.fdiv (frame_width : ℤ) 2 + Int.fdiv center_region_width 2
    let center_start_y := Int.fdiv (frame_height : ℤ) 2 - Int.fdiv center_region_height 2
    let center_end_y := Int.fdiv (frame_height : ℤ) 2 + Int.fdiv center_region_height 2
    (decide (center_start_x ≤ bbox_center_x ∧ bbox_center_x ≤ center_end_x)) &&
    (decide (center_start_y ≤ bbox_center_y ∧ bbox_center_y ≤ center_end_y))

/-- Claim C4: for every frame geometry, threshold in (0,1] and bbox, the
center test holds iff the floor-division bbox center
`(x + bw//2, y + bh//2)` lies in the closed interval
`[w//2 - int(w*threshold)//2, w//2 + int(w*threshold)//2]` on x and the
analogous closed interval on y, independently per axis, and a missing bbox
yields false; as a function of its inputs it has no side effects. -/
theorem is_in_center_spec (ct : ℚ) (w h : ℕ) (x y bw bh : ℤ)
    (hct0 : 0 < ct) (hct1 : ct ≤ 1) :
    (is_in_center ct w h (some (x, y, bw, bh)) = true ↔
      (((w : ℤ).fdiv 2 - (py_int ((w : ℚ) * ct)).fdiv 2 ≤ x + bw.fdiv 2 ∧
        x + bw.fdiv 2 ≤ (w : ℤ).fdiv 2 + (py_int ((w : ℚ) * ct)).fdiv 2) ∧
       ((h : ℤ).fdiv 2 - (py_int ((h : ℚ) * ct)).fdiv 2 ≤ y + bh.fdiv 2 ∧
        y + bh.fdiv 2 ≤ (h : ℤ).fdiv 2 + (py_int ((h : ℚ) * ct)).fdiv 2))) ∧
    is_in_center ct w h none = false := by
  constructor
  · simp [is_in_center]
  · rfl

/-- Witness for `is_in_center_spec`: spec Scenario A, frame 640x480,
`center_threshold = 0.5`, bbox (270, 190, 100, 100), whose center (320, 240)
is the frame center. -/
theorem is_in_center_spec_witness :
    (0 < (1 / 2 : ℚ) ∧ (1 / 2 : ℚ) ≤ 1) ∧
    ((is_in_center (1/2) 640 480 (some (270, 190, 100, 100)) = true ↔
      (((640 : ℤ).fdiv 2 - (py_int ((640 : ℚ) * (1/2))).fdiv 2 ≤ 270 + (100 : ℤ).fdiv 2 ∧
        270 + (100 : ℤ).fdiv 2 ≤ (640 : ℤ).fdiv 2 + (py_int ((640 : ℚ) * (1/2))).fdiv 2) ∧
       ((480 : ℤ).fdiv 2 - (py_int ((480 : ℚ) * (1/2))).fdiv 2 ≤ 190 + (100 : ℤ).fdiv 2 ∧
        190 + (100 : ℤ).fdiv 2 ≤ (480 : ℤ).fdiv 2 + (py_int ((480 : ℚ) * (1/2))).fdiv 2))) ∧
      is_in_center (1/2) 640 480 none = false) ∧
    is_in_center (1/2) 640 480 (some (270, 190, 100, 100)) = true :=
  ⟨⟨by norm_num, by norm_num⟩,
    is_in_center_spec (1/2) 640 480 270 190 100 100 (by norm_num) (by norm_num),
    by
      have hw : py_int (((640 : ℕ) : ℚ) * (1/2)) = 320 := by norm_num [py_int]
      have hh : py_int (((480 : ℕ) : ℚ) * (1/2)) = 240 := by norm_num [py_int]
      simp only [is_in_center, hw, hh]
      decide⟩

/-! ## ML detector candidate selection

Embeds `MLDetector.detect` (detector_ml.py lines 87-141). The YOLO inference
result is a list of boxes, each with a class id, a confidence and xyxy
corner coordinates; `detect` scans them keeping the best target-class
detection, starting from `best_box = None`, `best_conf = 0.0`, replacing on
the strict comparison `conf > best_conf`.
-/

/-- One element of `result.boxes`: class id, confidence, and the xyxy
corners. -/
structure YoloBox where
  cls : ℕ
  conf : ℚ
  x1 : ℤ
  y1 : ℤ
  x2 : ℤ
  y2 : ℤ
deriving DecidableEq, Repr

/-- The `CLASS_NAMES` dict of detector_ml.py lines 20-24; membership
`cls_id in CLASS_NAMES` is `(class_names cls_id).isSome`. -/
def class_names : ℕ → Option String
  | 0 => some "squirrel"
  | 1 => some "skunk"
  | 2 => some "raccoon"
  | _ => none

/-- The selection loop of detector_ml.py lines 118-130:
`if cls_id in CLASS_NAMES and conf > best_conf:` update `best_box`,
`best_conf`, `best_class`. -/
def find_best (best : Option YoloBox) (best_conf : ℚ) :
    List YoloBox → Option YoloBox
  | [] => best
  | b :: rest =>
    if (class_names b.cls).isSome = true ∧ b.conf > best_conf then
      find_best (some b) b.conf rest
    else
      find_best best best_conf rest

/-- Embeds `MLDetector.detect` on the model's box list (detector_ml.py lines
117-141): runs the selection loop from `(None, 0.0)` and converts the
winner's xyxy corners to an `(x, y, w, h)` bbox. -/
def detect (boxes : List YoloBox) :
    Bool × Option (ℤ × ℤ × ℤ × ℤ) × ℚ × Option String :=
  match find_best none 0 boxes with
  | none => (false, none, 0, none)
  | some b => (true, some (b.x1, b.y1, b.x2 - b.x1, b.y2 - b.y1), b.conf,
      class_names b.cls)

theorem find_best_no_better (boxes : List YoloBox) :
    ∀ (best : Option YoloBox) (bc : ℚ),
      (∀ b ∈ boxes, (class_names b.cls).isSome = true → b.conf ≤ bc) →
      find_best best bc boxes = best := by
  induction boxes with
  | nil => intro best bc _; rfl
  | cons b rest ih =>
    intro best bc hno
    show (if (class_names b.cls).isSome = true ∧ b.conf > bc then
        find_best (some b) b.conf rest else find_best best bc rest) = best
    rw [if_neg, ih best bc (fun b' hb' => hno b' (List.mem_cons_of_mem b hb'))]
    rintro ⟨ht, hgt⟩
    exact absurd hgt (not_lt.mpr (hno b (List.mem_cons_self b rest) ht))

theorem find_best_first_max (boxes : List YoloBox) :
    ∀ (best : Option YoloBox) (bc : ℚ),
      (∃ b ∈ boxes, (class_names b.cls).isSome = true ∧ bc < b.conf) →
      ∃ (i : ℕ) (hi : i < boxes.length),
        find_best best bc boxes = some (boxes.get ⟨i, hi⟩) ∧
        (class_names (boxes.get ⟨i, hi⟩).cls).isSome = true ∧
        bc < (boxes.get ⟨i, hi⟩).conf ∧
        (∀ (j : ℕ) (hj : j < boxes.length),
          (class_names (boxes.get ⟨j, hj⟩).cls).isSome = true →
          (boxes.get ⟨j, hj⟩).conf ≤ (boxes.get ⟨i, hi⟩).conf) ∧
        (∀ (j : ℕ) (hj : j < boxes.length), j < i →
          (class_names (boxes.get ⟨j, hj⟩).cls).isSome = true →
          (boxes.get ⟨j, hj⟩).conf < (boxes.get ⟨i, hi⟩).conf) := by
  induction boxes with
  | nil =>
    intro best bc hex
    obtain ⟨b, hb, _⟩ := hex
    exact absurd hb (List.not_mem_nil b)
  | cons b rest ih =>
    intro best bc hex
    by_cases hb : (class_names b.cls).isSome = true ∧ b.conf > bc
    · have hstep : find_best best bc (b :: rest) = find_best (some b) b.conf rest := by
        show (if _ then _ else _) = _
        rw [if_pos hb]
      by_cases hrest : ∃ b' ∈ rest, (class_names b'.cls).isSome = true ∧ b.conf < b'.conf
      · obtain ⟨i, hi, heq, htar, hgt, hmax, hfirst⟩ := ih (some b) b.conf hrest
        refine ⟨i + 1, Nat.succ_lt_succ hi, ?_, ?_, ?_, ?_, ?_⟩
        · rw [hstep, heq]; simp [List.get_cons_succ]
        · simpa [List.get_cons_succ] using htar
        · simp only [List.get_cons_succ]
          exact lt_trans hb.2 hgt
        · intro j hj ht
          cases j with
          | zero =>
            simp only [List.get_cons_succ, List.get_cons_zero] at ht ⊢
            exact le_of_lt hgt
          | succ k =>
            simp only [List.get_cons_succ] at ht ⊢
            exact hmax k (Nat.lt_of_succ_lt_succ hj) ht
        · intro j hj hlt ht
          cases j with
          | zero =>
            simp only [List.get_cons_succ, List.get_cons_zero] at ht ⊢
            exact hgt
          | succ k =>
            simp only [List.get_cons_succ] at ht ⊢
            exact hfirst k (Nat.lt_of_succ_lt_succ hj) (Nat.lt_of_succ_lt_succ hlt) ht
      · push_neg at hrest
        have heq2 : find_best (some b) b.conf rest = some b :=
          find_best_no_better rest (some b) b.conf hrest
        refine ⟨0, Nat.succ_pos _, ?_, ?_, ?_, ?_, ?_⟩
        · rw [hstep, heq2]; simp
        · simpa using hb.1
        · simpa using hb.2
        · intro j hj ht
          cases j with
          | zero => simp
          | succ k =>
            simp only [List.get_cons_succ, List.get_cons_zero] at ht ⊢
            exact hrest _ (List.get_mem rest k (Nat.lt_of_succ_lt_succ hj)) ht
        · intro j hj hlt _
          exact absurd hlt (Nat.not_lt_zero j)
    · have hstep : find_best best bc (b :: rest) = find_best best bc rest := by
        show (if _ then _ else _) = _
        rw [if_neg hb]
      have hble : (class_names b.cls).isSome = true → b.conf ≤ bc := fun ht =>
        not_lt.mp (fun hlt => hb ⟨ht, hlt⟩)
      obtain ⟨b', hb', ht', hc'⟩ := hex
      have hbrest : ∃ b'' ∈ rest, (class_names b''.cls).isSome = true ∧ bc < b''.conf := by
        rcases List.mem_cons.mp hb' with h0 | hr
        · exact absurd hc' (not_lt.mpr (h0 ▸ hble (h0 ▸ ht')))
        · exact ⟨b', hr, ht', hc'⟩
      obtain ⟨i, hi, heq, htar, hgt, hmax, hfirst⟩ := ih best bc hbrest
      refine ⟨i + 1, Nat.succ_lt_succ hi, ?_, ?_, ?_, ?_, ?_⟩
      · rw [hstep, heq]; simp [List.get_cons_succ]
      · simpa [List.get_cons_succ] using htar
      · simpa [List.get_cons_succ] using hgt
      · intro j hj ht
        cases j with
        | zero =>
          simp only [List.get_cons_succ, List.get_cons_zero] at ht ⊢
          exact le_of_lt (lt_of_le_of_lt (hble ht) hgt)
        | succ k =>
          simp only [List.get_cons_succ] at ht ⊢
          exact hmax k (Nat.lt_of_succ_lt_succ hj) ht
      · intro j hj hlt ht
        cases j with
        | zero =>
          simp only [List.get_cons_succ, List.get_cons_zero] at ht ⊢
          exact lt_of_le_of_lt (hble ht) hgt
        | succ k =>
          simp only [List.get_cons_succ] at ht ⊢
          exact hfirst k (Nat.lt_of_succ_lt_succ hj) (Nat.lt_of_succ_lt_succ hlt) ht

/-- Two target-class candidates at confidence exactly 0, meeting a configured
threshold of 0. -/
def c7_zero_boxes : List YoloBox :=
  [⟨0, 0, 0, 0, 10, 10⟩, ⟨1, 0, 20, 20, 30, 30⟩]

/-- Claim C7 counterexample: with confidence threshold 0 configured, both
candidates are target-class detections with confidence ≥ the threshold, yet
`detect` selects neither (it reports no detection): the scan starts from
`best_conf = 0.0` and replaces only on the strict `conf > best_conf`, so a
maximal confidence of 0 is never selected, while the claim says the first of
them is. -/
theorem c7_counterexample :
    (∀ b ∈ c7_zero_boxes, (class_names b.cls).isSome = true ∧ (0 : ℚ) ≤ b.conf) ∧
    detect c7_zero_boxes = (false, none, 0, none) := by
  constructor
  · intro b hb
    fin_cases hb <;> exact ⟨rfl, le_refl 0⟩
  · norm_num [detect, find_best, c7_zero_boxes, class_names]

/-- Claim C7 (amended): for every list of candidate detections in the
detector's iteration order, all of whose target-class members have
confidence ≥ the configured threshold, and at least one of which is a
target-class detection with positive confidence, `detect` selects the
target-class candidate with the highest confidence, and when several share
the maximal confidence it selects the first in iteration order (stable and
deterministic): the selected index bounds every target candidate's
confidence, strictly so for the earlier ones. -/
theorem detect_selects_first_max (boxes : List YoloBox) (threshold : ℚ)
    (hthr : ∀ b ∈ boxes, (class_names b.cls).isSome = true → threshold ≤ b.conf)
    (hpos : ∃ b ∈ boxes, (class_names b.cls).isSome = true ∧ 0 < b.conf) :
    ∃ (i : ℕ) (hi : i < boxes.length),
      detect boxes = (true,
        some ((boxes.get ⟨i, hi⟩).x1, (boxes.get ⟨i, hi⟩).y1,
          (boxes.get ⟨i, hi⟩).x2 - (boxes.get ⟨i, hi⟩).x1,
          (boxes.get ⟨i, hi⟩).y2 - (boxes.get ⟨i, hi⟩).y1),
        (boxes.get ⟨i, hi⟩).conf, class_names (boxes.get ⟨i, hi⟩).cls) ∧
      (class_names (boxes.get ⟨i, hi⟩).cls).isSome = true ∧
      (∀ (j : ℕ) (hj : j < boxes.length),
        (class_names (boxes.get ⟨j, hj⟩).cls).isSome = true →
        (boxes.get ⟨j, hj⟩).conf ≤ (boxes.get ⟨i, hi⟩).conf) ∧
      (∀ (j : ℕ) (hj : j < boxes.length), j < i →
        (class_names (boxes.get ⟨j, hj⟩).cls).isSome = true →
        (boxes.get ⟨j, hj⟩).conf < (boxes.get ⟨i, hi⟩).conf) := by
  obtain ⟨i, hi, heq, htar, _hgt, hmax, hfirst⟩ := find_best_first_max boxes none 0 hpos
  exact ⟨i, hi, by simp only [detect, heq], htar, hmax, hfirst⟩

/-- A candidate list with a confidence tie between the second and third
boxes. -/
def c7_tie_boxes : List YoloBox :=
  [⟨0, 1/2, 0, 0, 10, 10⟩, ⟨1, 3/4, 0, 0, 10, 10⟩, ⟨2, 3/4, 5, 5, 15, 15⟩]

/-- Witness for `detect_selects_first_max`: three candidates over threshold
1/4 with a tie at the top; the selected one is the first of the maximal
pair. -/
theorem detect_selects_first_max_witness :
    (∀ b ∈ c7_tie_boxes, (class_names b.cls).isSome = true → (1/4 : ℚ) ≤ b.conf) ∧
    (∃ b ∈ c7_tie_boxes, (class_names b.cls).isSome = true ∧ (0 : ℚ) < b.conf) ∧
    (∃ (i : ℕ) (hi : i < c7_tie_boxes.length),
      detect c7_tie_boxes = (true,
        some ((c7_tie_boxes.get ⟨i, hi⟩).x1, (c7_tie_boxes.get ⟨i, hi⟩).y1,
          (c7_tie_boxes.get ⟨i, hi⟩).x2 - (c7_tie_boxes.get ⟨i, hi⟩).x1,
          (c7_tie_boxes.get ⟨i, hi⟩).y2 - (c7_tie_boxes.get ⟨i, hi⟩).y1),
        (c7_tie_boxes.get ⟨i, hi⟩).conf, class_names (c7_tie_boxes.get ⟨i, hi⟩).cls) ∧
      (class_names (c7_tie_boxes.get ⟨i, hi⟩).cls).isSome = true ∧
      (∀ (j : ℕ) (hj : j < c7_tie_boxes.length),
        (class_names (c7_tie_boxes.get ⟨j, hj⟩).cls).isSome = true →
        (c7_tie_boxes.get ⟨j, hj⟩).conf ≤ (c7_tie_boxes.get ⟨i, hi⟩).conf) ∧
      (∀ (j : ℕ) (hj : j < c7_tie_boxes.length), j < i →
        (class_names (c7_tie_boxes.get ⟨j, hj⟩).cls).isSome = true →
        (c7_tie_boxes.get ⟨j, hj⟩).conf < (c7_tie_boxes.get ⟨i, hi⟩).conf)) := by
  have h1 : ∀ b ∈ c7_tie_boxes, (class_names b.cls).isSome = true → (1/4 : ℚ) ≤ b.conf := by
    intro b hb
    fin_cases hb <;> intro _ <;> norm_num
  have h2 : ∃ b ∈ c7_tie_boxes, (class_names b.cls).isSome = true ∧ (0 : ℚ) < b.conf := by
    refine ⟨⟨0, 1/2, 0, 0, 10, 10⟩, ?_, by rfl, by norm_num⟩
    simp [c7_tie_boxes]
  exact ⟨h1, h2, detect_selects_first_max c7_tie_boxes (1/4) h1 h2⟩

/-! ## Startup failure handling

Embeds the startup path of `SquirrelDetectorApp.run` (main.py lines 72-79)
and `main` (main.py lines 285-302). `run` calls `self.camera.start()`
outside its try block — a raising `start()` (VideoCameraInterface on a file
that will not open, camera.py lines 140-142) propagates to `main`, which
catches it and calls `sys.exit(1)`. If `start()` returns but
`is_opened()` is false (the OpenCV fallback on a bad index), `run` logs
"Failed to open camera" and returns; `main` then completes normally, so the
process exits 0.
-/

/-- How the configured camera behaves at startup: whether `start()` raises,
and what `is_opened()` reports after a non-raising `start()`. -/
structure CamBehavior where
  startRaises : Bool
  opened : Bool
deriving DecidableEq, Repr

/-- Outcome of `run()` up to the loop entry (main.py lines 75-81). -/
inductive RunOutcome where
  | raisedBeforeLoop
  | failedOpenReturn
  | enteredLoop
deriving DecidableEq, Repr

/-- The startup control flow of main.py lines 75-81: `camera.start()`, then
`if not self.camera.is_opened(): logger.error(...); return`, else fall
through to `self.running = True` and the loop. -/
def run_startup (cam : CamBehavior) : RunOutcome :=
  if cam.startRaises then RunOutcome.raisedBeforeLoop
  else if !cam.opened then RunOutcome.failedOpenReturn
  else RunOutcome.enteredLoop

/-- Whether the detection loop body runs at all for a given startup
outcome. -/
def processes_any_tick : RunOutcome → Bool
  | RunOutcome.enteredLoop => true
  | _ => false

/-- The process exit code as determined by `main` (main.py lines 285-302):
`sys.exit(1)` only inside `except Exception`; when `app.run()` returns
(early or after a signal stops the loop), `main` completes and the process
exits 0. -/
def main_exit_code (cam : CamBehavior) : ℕ :=
  match run_startup cam with
  | RunOutcome.raisedBeforeLoop => 1
  | RunOutcome.failedOpenReturn => 0
  | RunOutcome.enteredLoop => 0

/-- Claim C8 counterexample: a camera whose `start()` returns but that
reports not-opened (the OpenCV fallback with an invalid camera index). The
loop indeed processes no tick, but the process exits with code 0, not the
claimed 1: `run` merely logs and returns, and `main` completes normally. -/
theorem c8_counterexample :
    processes_any_tick (run_startup ⟨false, false⟩) = false ∧
    main_exit_code ⟨false, false⟩ = 0 ∧
    main_exit_code ⟨false, false⟩ ≠ 1 := by
  refine ⟨rfl, rfl, ?_⟩
  intro h
  simp [main_exit_code, run_startup] at h

/-- Claim C8 (amended): if the camera/video source fails to open at startup
(its `start()` raises, or it reports not-opened), the run is aborted
immediately and the detection loop processes no tick; the process terminates
with exit code 1 exactly when `start()` raised (the video-file path), and
with exit code 0 when `start()` returned but the source reports not-opened
(`run` logs the failure and returns, and `main` completes normally). -/
theorem run_fail_open_abort (cam : CamBehavior)
    (hfail : cam.startRaises = true ∨ cam.opened = false) :
    processes_any_tick (run_startup cam) = false ∧
    (main_exit_code cam = 1 ↔ cam.startRaises = true) := by
  rcases cam with ⟨sr, op⟩
  cases sr <;> cases op <;>
    simp_all [run_startup, processes_any_tick, main_exit_code]

/-- Witness for `run_fail_open_abort`: the video-file source that raises on a
path that cannot be opened. -/
theorem run_fail_open_abort_witness :
    ((true, false) : Bool × Bool).1 = true ∧
    (processes_any_tick (run_startup ⟨true, false⟩) = false ∧
      (main_exit_code ⟨true, false⟩ = 1 ↔ (⟨true, false⟩ : CamBehavior).startRaises = true)) :=
  ⟨rfl, run_fail_open_abort ⟨true, false⟩ (Or.inl rfl)⟩

/-! ## Frame source start/stop idempotence

Embeds the three `CameraInterface` implementations' `start`/`stop`:
`PiCameraInterface` (camera.py lines 73-90), `VideoCameraInterface`
(camera.py lines 135-151) and the inline `OpenCVCameraInterface` fallback
(main.py lines 191-226). The underlying handle (`Picamera2` instance or
`cv2.VideoCapture`) is modelled by a number identifying the concrete object
created by that `start()` call; `none` means the attribute is `None`.
-/

/-- Embeds `PiCameraInterface.start` (camera.py lines 73-83): returns immediately
when `self._camera is not None`, otherwise creates and starts a fresh
`Picamera2`. -/
def pi_camera_start (s : Option ℕ) (fresh : ℕ) : Option ℕ :=
  match s with
  | some h => some h
  | none => some fresh

/-- Embeds `PiCameraInterface.stop` (camera.py lines 85-90): stops, closes and
clears the handle when present; no-op when `self._camera is None`. -/
def pi_camera_stop (_s : Option ℕ) : Option ℕ := none

/-- Embeds `VideoCameraInterface.start` (camera.py lines 135-145): returns
immediately when `self._cap is not None`, otherwise opens a fresh
`cv2.VideoCapture` (the raising branch on an unopenable file is not taken
here; this models the successful open). -/
def video_camera_start (s : Option ℕ) (fresh : ℕ) : Option ℕ :=
  match s with
  | some h => some h
  | none => some fresh

/-- Embeds `VideoCameraInterface.stop` (camera.py lines 147-151): releases and
clears the handle when present; no-op when `None`. -/
def video_camera_stop (_s : Option ℕ) : Option ℕ := none

/-- The OpenCV fallback capture handle: its object identity and whether
`release()` has been called on it. -/
structure CvCap where
  id : ℕ
  released : Bool
deriving DecidableEq, Repr

/-- Embeds `OpenCVCameraInterface.start` (main.py lines 198-199): unconditionally
`self._cap = cv2.VideoCapture(self.camera_index)` — no already-started
guard, the previous handle is replaced. -/
def opencv_camera_start (_s : Option CvCap) (fresh : ℕ) : Option CvCap :=
  some ⟨fresh, false⟩

/-- Embeds `OpenCVCameraInterface.stop` (main.py lines 201-203): `if self._cap:
self._cap.release()` — the attribute keeps the (released) handle. -/
def opencv_camera_stop (s : Option CvCap) : Option CvCap :=
  match s with
  | none => none
  | some c => some ⟨c.id, true⟩

/-- Claim C9 counterexample: for the OpenCV fallback frame source, calling
`start()` when already started is not a no-op — the underlying capture
handle is replaced by a freshly constructed one. -/
theorem c9_counterexample :
    opencv_camera_start (some ⟨0, false⟩) 1 ≠ some ⟨0, false⟩ := by
  intro h
  simp [opencv_camera_start] at h

/-- Claim C9 (amended): `PiCameraInterface` and `VideoCameraInterface` treat
`start()` on an already-started source and `stop()` on an already-stopped
source as no-ops, leaving the underlying handle unchanged, and the OpenCV
fallback's `stop()` on an already-stopped source is a no-op; but the OpenCV
fallback's `start()` on an already-started source replaces the capture
handle with a new one. -/
theorem camera_start_stop_idempotent :
    (∀ (s : Option ℕ) (fresh h : ℕ), s = some h → pi_camera_start s fresh = s) ∧
    (∀ (s : Option ℕ) (fresh h : ℕ), s = some h → video_camera_start s fresh = s) ∧
    (∀ s : Option ℕ, pi_camera_stop (pi_camera_stop s) = pi_camera_stop s) ∧
    (∀ s : Option ℕ, video_camera_stop (video_camera_stop s) = video_camera_stop s) ∧
    (∀ s : Option CvCap, opencv_camera_stop (opencv_camera_stop s) = opencv_camera_stop s) ∧
    (∀ (s : Option CvCap) (fresh : ℕ), ∃ c : CvCap,
      opencv_camera_start s fresh = some c ∧ c.id = fresh) := by
  refine ⟨?_, ?_, fun s => rfl, fun s => rfl, ?_, fun s fresh => ⟨⟨fresh, false⟩, rfl, rfl⟩⟩
  · rintro s fresh h rfl
    rfl
  · rintro s fresh h rfl
    rfl
  · intro s
    cases s with
    | none => rfl
    | some c => rfl

/-- Witness for `camera_start_stop_idempotent`: a started Pi camera and a
started video capture with handle 5 are untouched by a second `start()`. -/
theorem camera_start_stop_idempotent_witness :
    (some 5 : Option ℕ) = some 5 ∧
    pi_camera_start (some 5) 9 = some 5 ∧
    video_camera_start (some 5) 9 = some 5 :=
  ⟨rfl, camera_start_stop_idempotent.1 (some 5) 9 5 rfl,
    camera_start_stop_idempotent.2.1 (some 5) 9 5 rfl⟩

/-! ## Multi-class GPIO actuator

Embeds `MockMultiClassGPIO` (gpio_multiclass.py lines 100-174) and
`PiMultiClassGPIO` (gpio_multiclass.py lines 42-97). Python dicts are
association lists with replace-on-assign; `trigger_class` sets the pin high,
sleeps, and sets it low again before returning, so only the post-call state
is observable between calls. A `PiMultiClassGPIO` device is modelled by its
output level (`gpiozero.OutputDevice` is constructed off).
-/

/-- Dict lookup `d.get(k)` on an association list. -/
def dict_get {α β : Type} [DecidableEq α] : List (α × β) → α → Option β
  | [], _ => none
  | (k, v) :: rest, a => if a = k then some v else dict_get rest a

/-- Dict assignment `d[k] = v` on an association list: replaces the existing
binding in place or appends a new one. -/
def dict_insert {α β : Type} [DecidableEq α] : List (α × β) → α → β → List (α × β)
  | [], a, v => [(a, v)]
  | (k, w) :: rest, a, v =>
    if a = k then (a, v) :: rest else (k, w) :: dict_insert rest a v

theorem dict_get_insert {α β : Type} [DecidableEq α] (m : List (α × β)) (k a : α) (v : β) :
    dict_get (dict_insert m k v) a = if a = k then some v else dict_get m a := by
  induction m with
  | nil =>
    by_cases h : a = k <;> simp [dict_get, dict_insert, h]
  | cons kv rest ih =>
    obtain ⟨k', w⟩ := kv
    by_cases hk : k = k'
    · rw [show dict_insert ((k', w) :: rest) k v = (k, v) :: rest from by
        simp [dict_insert, hk]]
      subst hk
      by_cases h : a = k <;> simp [dict_get, h]
    · rw [show dict_insert ((k', w) :: rest) k v = (k', w) :: dict_insert rest k v from by
        simp [dict_insert, hk]]
      by_cases h : a = k'
      · have hak : ¬ a = k := fun hh => hk (hh.symm.trans h)
        have hk2 : ¬ k' = k := fun hh => hk hh.symm
        simp [dict_get, h, hak, hk2]
      · simp [dict_get, h, ih]

/-- Embeds `MockMultiClassGPIO` observable state: `self._class_pins` and
`self._pin_states` (gpio_multiclass.py lines 103-107; callbacks carry no pin
state). -/
structure MockState where
  class_pins : List (String × ℕ)
  pin_states : List (ℕ × Bool)
deriving DecidableEq, Repr

/-- Embeds `MockMultiClassGPIO.__init__`: both dicts empty. -/
def mock_init : MockState := ⟨[], []⟩

/-- Embeds `MockMultiClassGPIO.setup_classes` (gpio_multiclass.py lines 109-120):
replaces `_class_pins` with a copy of the argument and initializes each pin
not already present to `False`. -/
def mock_setup_classes (s : MockState) (cp : List (String × ℕ)) : MockState :=
  { class_pins := cp,
    pin_states := cp.foldl
      (fun ps kv => if (dict_get ps kv.2).isSome then ps else dict_insert ps kv.2 false)
      s.pin_states }

/-- Embeds `MockMultiClassGPIO.trigger_class` (gpio_multiclass.py lines 122-154):
returns untouched when the class is unknown; otherwise sets the class's pin
`True`, sleeps for the duration, and sets it `False` before returning. -/
def mock_trigger_class (s : MockState) (class_name : String) : MockState :=
  match dict_get s.class_pins class_name with
  | none => s
  | some pin =>
    { s with pin_states := dict_insert (dict_insert s.pin_states pin true) pin false }

/-- Embeds `MockMultiClassGPIO.get_pin_state` (gpio_multiclass.py lines 162-174). -/
def mock_get_pin_state (s : MockState) (class_name : String) : Bool :=
  match dict_get s.class_pins class_name with
  | none => false
  | some pin => (dict_get s.pin_states pin).getD false

/-- Embeds `PiMultiClassGPIO` state: `self._class_pins` and the per-class
`OutputDevice` levels (gpio_multiclass.py lines 51-52). -/
structure PiState where
  class_pins : List (String × ℕ)
  devices : List (String × Bool)
deriving DecidableEq, Repr

/-- Embeds `PiMultiClassGPIO.__init__`: both dicts empty. -/
def pi_gpio_init : PiState := ⟨[], []⟩

/-- Embeds `PiMultiClassGPIO.setup_classes` (gpio_multiclass.py lines 54-65):
replaces `_class_pins` and constructs an (off) `OutputDevice` for each class
not already present. -/
def pi_setup_classes (s : PiState) (cp : List (String × ℕ)) : PiState :=
  { class_pins := cp,
    devices := cp.foldl
      (fun ds kv => if (dict_get ds kv.1).isSome then ds else dict_insert ds kv.1 false)
      s.devices }

/-- Embeds `PiMultiClassGPIO.trigger_class` (gpio_multiclass.py lines 67-90):
auto-creates an (off) device for a known class missing one, returns
untouched for an unknown class, and otherwise turns the device on, sleeps,
and turns it off before returning. -/
def pi_trigger_class (s : PiState) (class_name : String) : PiState :=
  match dict_get s.devices class_name with
  | some _ =>
    { s with devices := dict_insert (dict_insert s.devices class_name true) class_name false }
  | none =>
    match dict_get s.class_pins class_name with
    | some _pin =>
      { s with devices :=
          (dict_insert (dict_insert (dict_insert s.devices class_name false) class_name true)
            class_name false) }
    | none => s

/-- A call to the multi-class actuator interface. -/
inductive GpioCall where
  | setupClasses (cp : List (String × ℕ))
  | triggerClass (class_name : String)

/-- A sequence of mock actuator calls. -/
def mock_run (s : MockState) : List GpioCall → MockState
  | [] => s
  | GpioCall.setupClasses cp :: rest => mock_run (mock_setup_classes s cp) rest
  | GpioCall.triggerClass n :: rest => mock_run (mock_trigger_class s n) rest

/-- A sequence of Pi actuator calls. -/
def pi_run (s : PiState) : List GpioCall → PiState
  | [] => s
  | GpioCall.setupClasses cp :: rest => pi_run (pi_setup_classes s cp) rest
  | GpioCall.triggerClass n :: rest => pi_run (pi_trigger_class s n) rest

/-- Every value stored in a pin-state or device dict is `false`. -/
def all_low {α : Type} [DecidableEq α] (m : List (α × Bool)) : Prop :=
  ∀ (k : α) (b : Bool), dict_get m k = some b → b = false

theorem all_low_insert_false {α : Type} [DecidableEq α] (m : List (α × Bool)) (k : α)
    (hm : all_low m) : all_low (dict_insert m k false) := by
  intro q b hq
  rw [dict_get_insert] at hq
  by_cases h : q = k
  · rw [if_pos h] at hq
    exact (Option.some_inj.mp hq).symm
  · rw [if_neg h] at hq
    exact hm q b hq

theorem all_low_insert_insert {α : Type} [DecidableEq α] (m : List (α × Bool)) (k : α)
    (v : Bool) (hm : all_low m) : all_low (dict_insert (dict_insert m k v) k false) := by
  intro q b hq
  rw [dict_get_insert] at hq
  by_cases h : q = k
  · rw [if_pos h] at hq
    exact (Option.some_inj.mp hq).symm
  · rw [if_neg h, dict_get_insert, if_neg h] at hq
    exact hm q b hq

theorem all_low_setup_fold {α γ : Type} [DecidableEq α] (cp : List γ)
    (f : γ → α) :
    ∀ m : List (α × Bool), all_low m →
      all_low (cp.foldl
        (fun ps kv => if (dict_get ps (f kv)).isSome then ps else dict_insert ps (f kv) false)
        m) := by
  induction cp with
  | nil => intro m hm; exact hm
  | cons kv rest ih =>
    intro m hm
    rw [List.foldl_cons]
    by_cases h : (dict_get m (f kv)).isSome
    · rw [if_pos h]
      exact ih m hm
    · rw [if_neg h]
      exact ih _ (all_low_insert_false m (f kv) hm)

theorem mock_run_all_low (calls : List GpioCall) :
    ∀ s : MockState, all_low s.pin_states → all_low (mock_run s calls).pin_states := by
  induction calls with
  | nil => intro s hs; exact hs
  | cons c rest ih =>
    intro s hs
    cases c with
    | setupClasses cp =>
      exact ih _ (all_low_setup_fold cp (fun kv => kv.2) s.pin_states hs)
    | triggerClass n =>
      show all_low (mock_run (mock_trigger_class s n) rest).pin_states
      cases hlook : dict_get s.class_pins n with
      | none =>
        refine ih _ ?_
        rw [mock_trigger_class, hlook]
        exact hs
      | some pin =>
        refine ih _ ?_
        rw [mock_trigger_class, hlook]
        exact all_low_insert_insert s.pin_states pin true hs

theorem pi_run_all_low (calls : List GpioCall) :
    ∀ s : PiState, all_low s.devices → all_low (pi_run s calls).devices := by
  induction calls with
  | nil => intro s hs; exact hs
  | cons c rest ih =>
    intro s hs
    cases c with
    | setupClasses cp =>
      exact ih _ (all_low_setup_fold cp (fun kv => kv.1) s.devices hs)
    | triggerClass n =>
      show all_low (pi_run (pi_trigger_class s n) rest).devices
      cases hdev : dict_get s.devices n with
      | some lvl =>
        refine ih _ ?_
        rw [pi_trigger_class, hdev]
        exact all_low_insert_insert s.devices n true hs
      | none =>
        cases hcp : dict_get s.class_pins n with
        | some pin =>
          refine ih _ ?_
          rw [pi_trigger_class, hdev, hcp]
          exact all_low_insert_insert _ n true
            (all_low_insert_false s.devices n hs)
        | none =>
          refine ih _ ?_
          rw [pi_trigger_class, hdev, hcp]
          exact hs

theorem all_low_getD {α : Type} [DecidableEq α] (m : List (α × Bool)) (hm : all_low m)
    (k : α) : (dict_get m k).getD false = false := by
  cases h : dict_get m k with
  | none => rfl
  | some b => exact hm k b h

theorem mock_trigger_class_pin_low (s : MockState) (class_name : String)
    (hs : all_low s.pin_states) :
    mock_get_pin_state (mock_trigger_class s class_name) class_name = false := by
  rw [mock_get_pin_state]
  cases hlook : dict_get s.class_pins class_name with
  | none =>
    rw [mock_trigger_class, hlook]
    rw [hlook]
  | some pin =>
    rw [show (mock_trigger_class s class_name).class_pins = s.class_pins by
        rw [mock_trigger_class, hlook]]
    rw [hlook]
    rw [show (mock_trigger_class s class_name).pin_states =
        dict_insert (dict_insert s.pin_states pin true) pin false by
        rw [mock_trigger_class, hlook]]
    exact all_low_getD _ (all_low_insert_insert s.pin_states pin true hs) pin

/-- Claim C10: a completed `trigger_class` call always ends with the
triggered class's pin low, and after any finite sequence of `setup_classes`
and `trigger_class` calls — on either the mock or the Pi multi-class
actuator, starting from a fresh instance — every pin state observable
between calls (`get_pin_state` for the mock, the device output levels for the
Pi backend) is `False`: no call sequence leaves a pin latched high. -/
theorem trigger_class_leaves_pins_low (calls : List GpioCall) :
    (∀ class_name : String,
      mock_get_pin_state (mock_run mock_init calls) class_name = false) ∧
    (∀ class_name : String,
      mock_get_pin_state
        (mock_trigger_class (mock_run mock_init calls) class_name) class_name = false) ∧
    (∀ class_name : String,
      (dict_get (pi_run pi_gpio_init calls).devices class_name).getD false = false) := by
  have hnil_mock : all_low (mock_init.pin_states) := by
    intro k b hk
    simp [mock_init, dict_get] at hk
  have hnil_pi : all_low (pi_gpio_init.devices) := by
    intro k b hk
    simp [pi_gpio_init, dict_get] at hk
  have hmock := mock_run_all_low calls mock_init hnil_mock
  have hpi := pi_run_all_low calls pi_gpio_init hnil_pi
  refine ⟨fun n => ?_, fun n => mock_trigger_class_pin_low _ n hmock,
    fun n => all_low_getD _ hpi n⟩
  rw [mock_get_pin_state]
  cases hlook : dict_get (mock_run mock_init calls).class_pins n with
  | none => rfl
  | some pin => exact all_low_getD _ hmock pin

end Squirrel
